import Mathlib

/-!
Verification of the service-discovery and connection-pool subsystem of the
dcc-mcp-rpyc repository.

The Python sources are embedded shallowly:

* `src/dcc_mcp_rpyc/discovery/file_strategy.py` (`FileDiscoveryStrategy`):
  the registry file is modelled as an abstract `FileContent` (absent, present
  but not valid JSON, or a parsed JSON document); the file system is an `FS`
  record that also tracks backup copies and whether the `json.dump` write in
  `_save_registry` raises.  Python dicts are association lists that keep
  insertion order, as Python dicts do; timestamps and JSON numbers are exact
  rationals.
* `src/dcc_mcp_rpyc/discovery/registry.py` (`ServiceRegistry`): strategies are
  abstracted by the results their `discover_services` / `register_service` /
  `unregister_service` calls produce, and exceptions are `Except` values.
* `src/dcc_mcp_rpyc/client/pool.py` (`ConnectionPool`): pooled clients are
  abstract records carrying the observable outcomes of `is_connected`, the
  ping probe and `disconnect`.
-/

namespace DccMcpRpyc

/-- Model of a parsed JSON value as produced by `json.load`.  Numbers are
exact rationals (Python floats are not reasoned about bit-for-bit here; the
arithmetic the code performs on timestamps is order comparison only). -/
inductive Json where
  | null : Json
  | bool (b : Bool) : Json
  | num (q : ℚ) : Json
  | str (s : String) : Json
  | arr (elems : List Json) : Json
  | obj (fields : List (String × Json)) : Json

/-- Fields of a JSON object / a Python dict with string keys, in insertion
order.  `json.load` produces unique keys; the operations below implement the
first-occurrence semantics, which agrees with dict semantics on such lists. -/
abbrev JFields := List (String × Json)

/-- Lookup of a key in an association list, as `dict.get`. -/
def lookupKey {κ α : Type} [DecidableEq κ] : List (κ × α) → κ → Option α
  | [], _ => none
  | (k, v) :: rest, key => if k = key then some v else lookupKey rest key

/-- Assignment `d[key] = v` on a Python dict: update in place if the key is
present, append otherwise. -/
def setKey {κ α : Type} [DecidableEq κ] : List (κ × α) → κ → α → List (κ × α)
  | [], key, v => [(key, v)]
  | (k, w) :: rest, key, v =>
      if k = key then (k, v) :: rest else (k, w) :: setKey rest key v

/-- Removal `d.pop(key)` / `del d[key]` on a Python dict (first occurrence). -/
def eraseKey {κ α : Type} [DecidableEq κ] : List (κ × α) → κ → List (κ × α)
  | [], _ => []
  | (k, w) :: rest, key => if k = key then rest else (k, w) :: eraseKey rest key

/-- Python `str.lower()`, modelled as character-wise lowering. -/
def pyLower (s : String) : String := ⟨s.data.map Char.toLower⟩

/-- Observable content of the registry file at `registry_path`. -/
inductive FileContent where
  | absent : FileContent
  | garbage : FileContent
  | json (data : Json) : FileContent

/-- Abstract state of the file system seen by `FileDiscoveryStrategy`:
the registry file, the backup copies made by `_backup_invalid_registry`
(most recent first), and whether the `json.dump` call inside
`_save_registry` raises an I/O or serialization error.  The backup copy
itself (a `shutil.copy2`) is modelled as succeeding. -/
structure FS where
  file : FileContent
  backups : List FileContent
  writeFails : Bool

namespace FileDiscoveryStrategy

/-- Embeds `FileDiscoveryStrategy._backup_invalid_registry`: when the registry
file exists, record a (timestamped) copy of it. -/
def backup_invalid_registry (fs : FS) : FS :=
  match fs.file with
  | .absent => fs
  | c => { fs with file := c, backups := c :: fs.backups }

/-- Embeds `FileDiscoveryStrategy._load_registry`.  Returns the new file-system
state (a backup may have been made) together with the in-memory `_services`
dict.  Tracing the source: a missing file yields an empty store; invalid JSON
(`json.JSONDecodeError`) backs up the file and yields an empty store; a JSON
object has its `_version` key popped and is stored as-is (both the
`version == 1` branch and the unknown-version branch keep the dict); any other
top-level JSON value makes `version` default to `1` and then fails the
`isinstance(data, dict)` check, so the file is backed up and the store reset. -/
def load_registry (fs : FS) : FS × JFields :=
  match fs.file with
  | .absent => (fs, [])
  | .garbage => (backup_invalid_registry fs, [])
  | .json data =>
    match data with
    | .obj fields => (fs, eraseKey fields "_version")
    | _ => (backup_invalid_registry fs, [])

/-- Embeds `FileDiscoveryStrategy._save_registry`: copies `_services`, sets
`_version` to `1`, and writes the document.  The enclosing
`try ... except Exception` swallows any error raised by the write, leaving the
file unchanged; no error ever propagates to the caller. -/
def save_registry (fs : FS) (services : JFields) : FS :=
  if fs.writeFails then fs
  else { fs with file := .json (.obj (setKey services "_version" (.num 1))) }

end FileDiscoveryStrategy

/-- Modelled from the spec: the `ServiceInfo` record (the ServiceRecord of the spec) is defined in `dcc_mcp_rpyc/discovery/base.py`, which is not
among the provided sources.  The spec data model gives the fields: `name`
(string), `host` (string), `port` (integer), `category`/`dcc_type` (string)
and a string-keyed `metadata` map. -/
structure ServiceInfo where
  name : String
  host : String
  port : Int
  dcc_type : String
  metadata : List (String × Json)

/-- Numeric value of a JSON value under Python arithmetic: numbers are
themselves and booleans coerce to 0/1; any other operand of `-` raises a
`TypeError`, modelled as `none`. -/
def asNum : Json → Option ℚ
  | .num q => some q
  | .bool b => some (if b then 1 else 0)
  | _ => none

/-- Modelled from the spec: the `ServiceInfo(...)` constructor call in
`discover_services` (the class itself lives in the absent
`dcc_mcp_rpyc/discovery/base.py`).  Construction succeeds when the fields
have the types the spec data model prescribes — string name, string host,
integer port, object metadata — and the exception caught by
`discover_services` corresponds to `none`. -/
def mkServiceInfo (name host port : Json) (dccType : String) (metadata : Json) :
    Option ServiceInfo :=
  match name, host, port, metadata with
  | .str n, .str h, .num p, .obj m =>
      if p.den = 1 then some ⟨n, h, p.num, dccType, m⟩ else none
  | _, _, _, _ => none

namespace FileDiscoveryStrategy

/-- Embeds the guard `if service_type and dcc_name != service_type: continue`
of `discover_services`.  Note the Python truthiness: an empty string
`service_type` is falsy, so it filters nothing. -/
def typeFilterSkips (serviceType : Option String) (dccName : String) : Bool :=
  match serviceType with
  | none => false
  | some t => if t = "" then false else decide (dccName ≠ t)

/-- Embeds the body of the `for dcc_name, service_data in self._services.items()`
loop of `discover_services` for one entry: skip filtered or non-dict entries,
skip entries whose timestamp is more than 3600 seconds old, and otherwise
construct a `ServiceInfo` (a construction failure is caught and the entry
skipped).  A non-numeric stored timestamp makes `time.time() - timestamp`
raise a `TypeError` that escapes `discover_services`, modelled as `.error`. -/
def entryResult (now : ℚ) (serviceType : Option String) (dccName : String)
    (serviceData : Json) : Except Unit (Option ServiceInfo) :=
  if typeFilterSkips serviceType dccName then .ok none
  else
    match serviceData with
    | .obj fields =>
      match asNum ((lookupKey fields "timestamp").getD (.num 0)) with
      | none => .error ()
      | some ts =>
        if now - ts > 3600 then .ok none
        else .ok (mkServiceInfo ((lookupKey fields "name").getD (.str dccName))
            ((lookupKey fields "host").getD (.str ""))
            ((lookupKey fields "port").getD (.num 0))
            dccName
            ((lookupKey fields "metadata").getD (.obj [])))
    | _ => .ok none

/-- Runs `entryResult` over the whole `_services` dict, collecting the
surviving records in iteration order; an entry error aborts the whole call,
as the uncaught `TypeError` would. -/
def collectServices (now : ℚ) (serviceType : Option String) :
    JFields → Except Unit (List ServiceInfo)
  | [] => .ok []
  | (dccName, serviceData) :: rest =>
    match entryResult now serviceType dccName serviceData with
    | .error e => .error e
    | .ok none => collectServices now serviceType rest
    | .ok (some si) =>
      match collectServices now serviceType rest with
      | .error e => .error e
      | .ok tail => .ok (si :: tail)

/-- Embeds `FileDiscoveryStrategy.discover_services`: reload the registry from
disk, then filter and convert the entries.  The strategy state after the call
is the file-system state left by `_load_registry`. -/
def discover_services (fs : FS) (serviceType : Option String) (now : ℚ) :
    FS × Except Unit (List ServiceInfo) :=
  let (fs2, services) := load_registry fs
  (fs2, collectServices now serviceType services)

/-- JSON object written for one service by `register_service` (its
`service_data` dict): name, host, port, the current time as timestamp, and
the metadata map. -/
def serviceDataJson (info : ServiceInfo) (now : ℚ) : Json :=
  .obj [("name", .str info.name), ("host", .str info.host),
    ("port", .num (info.port : ℚ)), ("timestamp", .num now),
    ("metadata", .obj info.metadata)]

/-- Embeds `FileDiscoveryStrategy.register_service`: reload the registry,
store the service data under the `dcc_type` key, save, and return `True`.
No step of the body can raise — `_load_registry` and `_save_registry` catch
their own exceptions internally — so the `except` branch returning `False`
is unreachable and the function always returns `True`. -/
def register_service (fs : FS) (info : ServiceInfo) (now : ℚ) : FS × Bool :=
  let (fs2, services) := load_registry fs
  let services2 := setKey services info.dcc_type (serviceDataJson info now)
  (save_registry fs2 services2, true)

end FileDiscoveryStrategy

/-- Abstract pooled client, carrying the observable outcomes of the calls the
pool makes on it.  `connected` is the value returned by `is_connected()`;
`ping` records the liveness probe of `_is_client_valid` (`none`: neither the
client nor its connection exposes a callable `ping`, so no probe runs;
`some b`: the probe runs and raises iff `b = false`); `disconnectRaises`
records whether `disconnect()` raises.  `reconnectWouldSucceed` is a ghost
observation: whether a `reconnect()` call on this handle would succeed —
the pool code never makes such a call, so no operation below reads it. -/
structure PoolClient where
  id : Nat
  connected : Bool
  ping : Option Bool
  reconnectWouldSucceed : Bool
  disconnectRaises : Bool
deriving DecidableEq

/-- Pool key `(dcc_name.lower(), host, port)`. -/
abbrev PoolKey := String × String × Int

/-- The `ConnectionPool.pool` dict: key to `(client, last_used_time)`. -/
abbrev Pool := List (PoolKey × PoolClient × ℚ)

namespace ConnectionPool

/-- Embeds `ConnectionPool._is_client_valid`: invalid when `is_connected()`
is false; otherwise the ping probe runs if available and a raise makes the
client invalid; a client without any ping attribute is accepted as valid. -/
def is_client_valid (client : PoolClient) : Bool :=
  if !client.connected then false
  else
    match client.ping with
    | some ok => ok
    | none => true

/-- Embeds the pooled-key path of `ConnectionPool.get_client` (the part after
host/port are resolved): build the key, and if an entry exists, return its
client with a refreshed timestamp when `_is_client_valid` accepts it, else
delete the entry and store a newly constructed client.  Client construction
is abstracted by the `fresh` argument; no reconnect is ever attempted on the
cached handle. -/
def get_client (pool : Pool) (dcc_name host : String) (port : Int)
    (fresh : PoolClient) (now : ℚ) : Pool × PoolClient :=
  let key : PoolKey := (pyLower dcc_name, host, port)
  match lookupKey pool key with
  | some (client, _) =>
    if is_client_valid client then (setKey pool key (client, now), client)
    else (setKey (eraseKey pool key) key (fresh, now), fresh)
  | none => (setKey pool key (fresh, now), fresh)

/-- Embeds `ConnectionPool.close_client`: when the key is pooled, call
`disconnect()`; if it raises, the `del` and the `return True` are skipped,
the warning is logged, and the method returns `False` with the pool
unchanged.  Only a successful disconnect removes the entry. -/
def close_client (pool : Pool) (dcc_name host : String) (port : Int) :
    Pool × Bool :=
  let key : PoolKey := (pyLower dcc_name, host, port)
  match lookupKey pool key with
  | some (client, _) =>
    if client.disconnectRaises then (pool, false)
    else (eraseKey pool key, true)
  | none => (pool, false)

end ConnectionPool

/-- Abstraction of one registered discovery strategy, as seen by
`ServiceRegistry`: the outcome of a `discover_services` call (a raised
exception or a list of records) and the booleans returned by
`register_service` / `unregister_service`. -/
structure Strategy where
  discoverResult : Except Unit (List ServiceInfo)
  registerResult : Bool
  unregisterResult : Bool

/-- Errors surfaced by `ServiceRegistry` methods: the `ValueError` raised for
an unknown strategy name, or an exception propagating out of a strategy. -/
inductive RegError where
  | valueError (strategyName : String) : RegError
  | strategyError : RegError

/-- Flat element of the grouped result of `get_available_dcc_instances`: the
`instance_info` dict.  Its `host` and `port` slots are always the
own fields of the service record (the metadata flattening below never overwrites
them), so the host:port dedup comparison is on these fields. -/
structure InstanceEntry where
  name : String
  host : String
  port : Int
  dccType : String
  extra : List (String × Json)

/-- Grouped result of `get_available_dcc_instances`: lowercased category to
instance list. -/
abbrev Grouped := List (String × List InstanceEntry)

/-- Embeds the `ServiceRegistry` state: the `_strategies` dict, the
`_services` cache keyed by the composite `dcc:name:host:port` string, and
the `_cached_instances` attribute (absent before the first computation). -/
structure ServiceRegistry where
  strategies : List (String × Strategy)
  services : List (String × ServiceInfo)
  cachedInstances : Option Grouped

namespace ServiceRegistry

/-- Composite cache key `f"{dcc_type}:{name}:{host}:{port}"`. -/
def serviceKey (si : ServiceInfo) : String :=
  si.dcc_type ++ ":" ++ si.name ++ ":" ++ si.host ++ ":" ++ toString si.port

/-- Cache update loop of `ServiceRegistry.discover_services`. -/
def updateCache (cache : List (String × ServiceInfo)) (svcs : List ServiceInfo) :
    List (String × ServiceInfo) :=
  svcs.foldl (fun c s => setKey c (serviceKey s) s) cache

/-- Embeds `ServiceRegistry.discover_services`: an unknown strategy name
raises `ValueError`; otherwise the strategy is invoked (its exception, if
any, propagates) and successful results are merged into the cache. -/
def discover_services (reg : ServiceRegistry) (strategyName : String) :
    Except RegError (ServiceRegistry × List ServiceInfo) :=
  match lookupKey reg.strategies strategyName with
  | none => .error (.valueError strategyName)
  | some strat =>
    match strat.discoverResult with
    | .error _ => .error .strategyError
    | .ok svcs => .ok ({ reg with services := updateCache reg.services svcs }, svcs)

/-- Embeds `ServiceRegistry.register_service`: unknown strategy name raises
`ValueError`; on a successful strategy call the cache entry is set. -/
def register_service (reg : ServiceRegistry) (strategyName : String)
    (info : ServiceInfo) : Except RegError (ServiceRegistry × Bool) :=
  match lookupKey reg.strategies strategyName with
  | none => .error (.valueError strategyName)
  | some strat =>
    if strat.registerResult then
      .ok ({ reg with services := setKey reg.services (serviceKey info) info }, true)
    else .ok (reg, false)

/-- Embeds `ServiceRegistry.unregister_service`: unknown strategy name raises
`ValueError`; on a successful strategy call the cache entry is removed when
present. -/
def unregister_service (reg : ServiceRegistry) (strategyName : String)
    (info : ServiceInfo) : Except RegError (ServiceRegistry × Bool) :=
  match lookupKey reg.strategies strategyName with
  | none => .error (.valueError strategyName)
  | some strat =>
    if strat.unregisterResult then
      .ok ({ reg with services := eraseKey reg.services (serviceKey info) }, true)
    else .ok (reg, false)

/-- Metadata flattening loop of `get_available_dcc_instances`: each metadata
item is added to `instance_info` unless its key is already present (the four
fixed fields, or a metadata key added earlier). -/
def flattenMetadata : List (String × Json) → List String → List (String × Json)
  | [], _ => []
  | (k, v) :: rest, used =>
    if used.contains k then flattenMetadata rest used
    else (k, v) :: flattenMetadata rest (k :: used)

/-- The `instance_info` dict built for one discovered service. -/
def instanceEntryOf (si : ServiceInfo) : InstanceEntry :=
  ⟨si.name, si.host, si.port, si.dcc_type,
    flattenMetadata si.metadata ["name", "host", "port", "dcc_type"]⟩

/-- Grouping step of `get_available_dcc_instances` for one service: ensure a
list exists for the lowercased category, and append the instance unless an
entry with the same host and port is already in that list. -/
def addService (res : Grouped) (si : ServiceInfo) : Grouped :=
  let d := pyLower si.dcc_type
  let group := (lookupKey res d).getD []
  let group2 :=
    if group.any (fun e => e.host = si.host && e.port = si.port) then group
    else group ++ [instanceEntryOf si]
  setKey res d group2

/-- Folds `addService` over the records one strategy returned. -/
def addServices (res : Grouped) (svcs : List ServiceInfo) : Grouped :=
  svcs.foldl addService res

/-- Embeds `ServiceRegistry.get_available_dcc_instances`: with a cached
result and `refresh = false`, the cache is returned verbatim; otherwise every
registered strategy is queried through `discover_services` inside a
`try ... except` that logs and continues on error, the results are grouped by
lowercased category with host:port dedup, and the grouped result is cached. -/
def get_available_dcc_instances (reg : ServiceRegistry) (refresh : Bool) :
    ServiceRegistry × Grouped :=
  match reg.cachedInstances, refresh with
  | some cached, false => (reg, cached)
  | _, _ =>
    let step := fun (acc : ServiceRegistry × Grouped) (name : String) =>
      match acc.1.discover_services name with
      | .error _ => acc
      | .ok (reg2, svcs) => (reg2, addServices acc.2 svcs)
    let out := (reg.strategies.map Prod.fst).foldl step (reg, [])
    ({ out.1 with cachedInstances := some out.2 }, out.2)

end ServiceRegistry

/-- Tests whether a JSON value is an object, as `isinstance(data, dict)`. -/
def Json.isObj : Json → Bool
  | .obj _ => true
  | _ => false

/-- Registry file holding exactly one service entry, stored in the legacy
single-object shape under the category of the record itself. -/
def singleServiceFS (info : ServiceInfo) (T : ℚ) : FS :=
  ⟨.json (.obj [(info.dcc_type, FileDiscoveryStrategy.serviceDataJson info T)]), [], false⟩

/-- A stored registry entry is good when, if its value is an object, the
stored timestamp (default `0`) is numeric, so that `time.time() - timestamp`
cannot raise.  Every entry the code itself writes is good. -/
def goodEntry : String × Json → Prop := fun e =>
  match e.2 with
  | .obj f => (asNum ((lookupKey f "timestamp").getD (.num 0))).isSome = true
  | _ => True

/-- A registry file is good when every entry of its JSON document is good;
files that are absent, corrupt, or not an object are trivially good because
loading them yields an empty store. -/
def FS.goodFile (fs : FS) : Prop :=
  match fs.file with
  | .json (.obj fields) => ∀ e ∈ fields, goodEntry e
  | _ => True

/-- Restatement of the strategy-iteration loop of
`get_available_dcc_instances` as a function of the strategy map and the list
of strategy names, used to reason about that loop. -/
def groupRun (strats : List (String × Strategy)) : List String → Grouped → Grouped
  | [], acc => acc
  | n :: rest, acc =>
    match lookupKey strats n with
    | none => groupRun strats rest acc
    | some s =>
      match s.discoverResult with
      | .error _ => groupRun strats rest acc
      | .ok svcs => groupRun strats rest (ServiceRegistry.addServices acc svcs)

/-- Sample service record used in concrete witnesses. -/
def mayaInfo : ServiceInfo :=
  ⟨"maya-2022", "127.0.0.1", 18812, "maya", [("version", .str "2022")]⟩

/-- Pooled client whose `is_connected()` reports false but whose (never
attempted) `reconnect()` would succeed. -/
def deadClient : PoolClient := ⟨0, false, some true, true, false⟩

/-- Freshly constructed, connected client. -/
def freshClient : PoolClient := ⟨1, true, some true, true, false⟩

/-- Connected client whose `disconnect()` raises. -/
def stuckClient : PoolClient := ⟨2, true, some true, true, true⟩

/-- Pool holding one entry whose client is disconnected. -/
def poolOne : Pool := [(("maya", "127.0.0.1", 18812), deadClient, 0)]

/-- Pool holding one entry whose client raises on disconnect. -/
def poolStuck : Pool := [(("houdini", "localhost", 9001), stuckClient, 7)]

/-- Strategy whose discovery raises. -/
def errStrategy : Strategy := ⟨.error (), true, true⟩

/-- Strategy whose discovery returns the sample record. -/
def mayaStrategy : Strategy := ⟨.ok [mayaInfo], true, true⟩

/-- Strategy whose discovery returns the sample record under another name. -/
def mayaStrategyB : Strategy :=
  ⟨.ok [⟨"maya-b", "127.0.0.1", 18812, "maya", []⟩], true, true⟩

/-- Strategy whose discovery succeeds with zero services. -/
def emptyStrategy : Strategy := ⟨.ok [], true, true⟩

theorem mem_of_mem_eraseKey {κ α : Type} [DecidableEq κ] {l : List (κ × α)} {key : κ}
    {e : κ × α} (h : e ∈ eraseKey l key) : e ∈ l := by
  induction l with
  | nil => simp [eraseKey] at h
  | cons hd tl ih =>
    obtain ⟨k, w⟩ := hd
    by_cases hk : k = key
    · rw [eraseKey, if_pos hk] at h
      exact List.mem_cons_of_mem _ h
    · rw [eraseKey, if_neg hk] at h
      rcases List.mem_cons.mp h with h | h
      · exact h ▸ List.mem_cons_self _ _
      · exact List.mem_cons_of_mem _ (ih h)

theorem mem_of_mem_setKey {κ α : Type} [DecidableEq κ] {l : List (κ × α)} {key : κ} {v : α}
    {e : κ × α} (h : e ∈ setKey l key v) : e ∈ l ∨ e = (key, v) := by
  induction l with
  | nil =>
    simp only [setKey, List.mem_singleton] at h
    exact .inr h
  | cons hd tl ih =>
    obtain ⟨k, w⟩ := hd
    by_cases hk : k = key
    · rw [setKey, if_pos hk] at h
      rcases List.mem_cons.mp h with h | h
      · exact .inr (by rw [h, hk])
      · exact .inl (List.mem_cons_of_mem _ h)
    · rw [setKey, if_neg hk] at h
      rcases List.mem_cons.mp h with h | h
      · exact .inl (h ▸ List.mem_cons_self _ _)
      · rcases ih h with h | h
        · exact .inl (List.mem_cons_of_mem _ h)
        · exact .inr h

theorem setKey_self_mem {κ α : Type} [DecidableEq κ] (l : List (κ × α)) (key : κ) (v : α) :
    (key, v) ∈ setKey l key v := by
  induction l with
  | nil => simp [setKey]
  | cons hd tl ih =>
    obtain ⟨k, w⟩ := hd
    by_cases hk : k = key
    · rw [setKey, if_pos hk]
      exact hk ▸ List.mem_cons_self _ _
    · rw [setKey, if_neg hk]
      exact List.mem_cons_of_mem _ ih

theorem mem_setKey_of_ne {κ α : Type} [DecidableEq κ] {l : List (κ × α)} {key : κ} {v : α}
    {e : κ × α} (h : e ∈ l) (hne : e.1 ≠ key) : e ∈ setKey l key v := by
  induction l with
  | nil => simp at h
  | cons hd tl ih =>
    obtain ⟨k, w⟩ := hd
    by_cases hk : k = key
    · rw [setKey, if_pos hk]
      rcases List.mem_cons.mp h with h | h
      · exact absurd (by rw [h] at hne ⊢; exact hk) hne
      · exact List.mem_cons_of_mem _ h
    · rw [setKey, if_neg hk]
      rcases List.mem_cons.mp h with h | h
      · exact h ▸ List.mem_cons_self _ _
      · exact List.mem_cons_of_mem _ (ih h)

theorem mem_eraseKey_of_ne {κ α : Type} [DecidableEq κ] {l : List (κ × α)} {key : κ}
    {e : κ × α} (h : e ∈ l) (hne : e.1 ≠ key) : e ∈ eraseKey l key := by
  induction l with
  | nil => simp at h
  | cons hd tl ih =>
    obtain ⟨k, w⟩ := hd
    by_cases hk : k = key
    · rw [eraseKey, if_pos hk]
      rcases List.mem_cons.mp h with h | h
      · exact absurd (by rw [h] at hne ⊢; exact hk) hne
      · exact h
    · rw [eraseKey, if_neg hk]
      rcases List.mem_cons.mp h with h | h
      · exact h ▸ List.mem_cons_self _ _
      · exact List.mem_cons_of_mem _ (ih h)

theorem typeFilterSkips_self (c : String) :
    FileDiscoveryStrategy.typeFilterSkips (some c) c = false := by
  by_cases hc : c = "" <;> simp [FileDiscoveryStrategy.typeFilterSkips, hc]

theorem entryResult_serviceDataJson (r : ServiceInfo) (now1 now2 : ℚ) (st : Option String)
    (hf : FileDiscoveryStrategy.typeFilterSkips st r.dcc_type = false) :
    FileDiscoveryStrategy.entryResult now2 st r.dcc_type
        (FileDiscoveryStrategy.serviceDataJson r now1) =
      if now2 - now1 > 3600 then .ok none else .ok (some r) := by
  simp only [FileDiscoveryStrategy.entryResult, FileDiscoveryStrategy.serviceDataJson, hf,
    Bool.false_eq_true, if_false]
  simp [lookupKey, asNum, mkServiceInfo]

/-- Claim C1, counterexample: on a state where the `json.dump` write inside
`_save_registry` raises, `register_service` still returns `true` and the
registry file on disk is unchanged — the record was not saved — refuting
"returns false whenever an I/O or serialization error occurs while persisting
the record (in particular, when writing the registry file to disk fails)" and
"it returns true only if the record was actually saved". -/
theorem C1_counterexample :
    (FileDiscoveryStrategy.register_service ⟨.json (.obj []), [], true⟩ mayaInfo 1000).2 = true ∧
    (FileDiscoveryStrategy.register_service ⟨.json (.obj []), [], true⟩ mayaInfo 1000).1.file =
      .json (.obj []) :=
  ⟨rfl, rfl⟩

/-- Claim C1, amended: `FileDiscoveryStrategy.register_service` never raises
to the caller (it is a total function of the modelled state) and always
returns `true`: an I/O or serialization error while writing the registry file
is caught and logged inside `_save_registry` itself, so even a failed disk
write yields `true`; the `except` branch of `register_service` that returns
`false` is unreachable. -/
theorem C1_register_service_always_true :
    ∀ (fs : FS) (info : ServiceInfo) (now : ℚ),
      (FileDiscoveryStrategy.register_service fs info now).2 = true :=
  fun _ _ _ => rfl

/-- Claim C10: for a pooled key whose client raises from `disconnect()`,
`ConnectionPool.close_client` returns `False` and the entry removal is
skipped, so the pool is unchanged and a later lookup of that key still finds
the same handle with the same timestamp; pool state is only mutated when
disconnect succeeds. -/
theorem C10_close_client_error_keeps_entry (pool : Pool) (dcc host : String) (port : Int)
    (c : PoolClient) (t : ℚ)
    (hkey : lookupKey pool (pyLower dcc, host, port) = some (c, t))
    (hdc : c.disconnectRaises = true) :
    ConnectionPool.close_client pool dcc host port = (pool, false) ∧
    lookupKey (ConnectionPool.close_client pool dcc host port).1 (pyLower dcc, host, port) =
      some (c, t) := by
  have h1 : ConnectionPool.close_client pool dcc host port = (pool, false) := by
    simp [ConnectionPool.close_client, hkey, hdc]
  exact ⟨h1, by rw [h1]; exact hkey⟩

/-- Claim C10, witness: the theorem applied to a concrete pool whose single
entry holds a client that raises on disconnect. -/
theorem C10_witness :
    ConnectionPool.close_client poolStuck "houdini" "localhost" 9001 = (poolStuck, false) ∧
    lookupKey (ConnectionPool.close_client poolStuck "houdini" "localhost" 9001).1
        (pyLower "houdini", "localhost", 9001) = some (stuckClient, 7) :=
  C10_close_client_error_keeps_entry poolStuck "houdini" "localhost" 9001 stuckClient 7
    rfl rfl

/-- Claim C2, counterexample: `get_client` on a pool whose cached handle
reports `is_connected() == false` immediately returns a newly constructed
client (a different handle), although a reconnect of the cached handle would
have succeeded (its ghost field `reconnectWouldSucceed` is true, and no
operation of the pool ever reads that field) — refuting "a reconnect of that
same handle is attempted once, and only if that reconnect also fails is a
fresh client constructed via the factory". -/
theorem C2_counterexample :
    (ConnectionPool.get_client poolOne "maya" "127.0.0.1" 18812 freshClient 5).2 = freshClient ∧
    freshClient ≠ deadClient ∧
    deadClient.reconnectWouldSucceed = true ∧
    deadClient.connected = false :=
  ⟨rfl, by decide, rfl, rfl⟩

/-- Claim C2, amended: for a pooled key, the cached handle is returned (with
its last-used timestamp refreshed) precisely when `_is_client_valid` accepts
it — `is_connected()` true and the liveness probe, if available, not raising;
an invalid handle is deleted from the pool and a fresh factory-constructed
client is stored in its place and returned.  No reconnect of the cached
handle is ever attempted. -/
theorem C2_get_client_validation (pool : Pool) (dcc host : String) (port : Int)
    (c : PoolClient) (t now : ℚ) (fresh : PoolClient)
    (hkey : lookupKey pool (pyLower dcc, host, port) = some (c, t)) :
    (ConnectionPool.is_client_valid c = true →
      ConnectionPool.get_client pool dcc host port fresh now =
        (setKey pool (pyLower dcc, host, port) (c, now), c)) ∧
    (ConnectionPool.is_client_valid c = false →
      ConnectionPool.get_client pool dcc host port fresh now =
        (setKey (eraseKey pool (pyLower dcc, host, port)) (pyLower dcc, host, port)
          (fresh, now), fresh)) := by
  constructor <;> intro hv <;> simp [ConnectionPool.get_client, hkey, hv]

/-- Claim C2, witness: the amended theorem applied to a concrete pool with a
disconnected cached client. -/
theorem C2_witness :
    ConnectionPool.get_client poolOne "maya" "127.0.0.1" 18812 freshClient 5 =
      (setKey (eraseKey poolOne (pyLower "maya", "127.0.0.1", 18812))
        (pyLower "maya", "127.0.0.1", 18812) (freshClient, 5), freshClient) :=
  (C2_get_client_validation poolOne "maya" "127.0.0.1" 18812 deadClient 0 5 freshClient
    rfl).2 rfl

/-- Claim C9: a strategy name absent from the registry strategy map makes
`discover_services`, `register_service` and `unregister_service` all raise
`ValueError`; this is distinct from a registered strategy successfully
returning an empty result list, which is a normal `.ok` outcome, not an
error. -/
theorem C9_unknown_strategy_value_error (reg reg2 : ServiceRegistry)
    (missing okName : String) (info : ServiceInfo) (s : Strategy)
    (hmissing : lookupKey reg.strategies missing = none)
    (hok : lookupKey reg2.strategies okName = some s)
    (hempty : s.discoverResult = .ok []) :
    reg.discover_services missing = .error (.valueError missing) ∧
    reg.register_service missing info = .error (.valueError missing) ∧
    reg.unregister_service missing info = .error (.valueError missing) ∧
    reg2.discover_services okName = .ok (reg2, []) := by
  refine ⟨?_, ?_, ?_, ?_⟩
  · simp [ServiceRegistry.discover_services, hmissing]
  · simp [ServiceRegistry.register_service, hmissing]
  · simp [ServiceRegistry.unregister_service, hmissing]
  · simp [ServiceRegistry.discover_services, hok, hempty, ServiceRegistry.updateCache]

/-- Claim C9, witness: the theorem applied to a registry that only knows the
"file" strategy, with "zeroconf" as the unknown name. -/
theorem C9_witness :
    ServiceRegistry.discover_services ⟨[("file", emptyStrategy)], [], none⟩ "zeroconf" =
      .error (.valueError "zeroconf") ∧
    ServiceRegistry.register_service ⟨[("file", emptyStrategy)], [], none⟩ "zeroconf" mayaInfo =
      .error (.valueError "zeroconf") ∧
    ServiceRegistry.unregister_service ⟨[("file", emptyStrategy)], [], none⟩ "zeroconf" mayaInfo =
      .error (.valueError "zeroconf") ∧
    ServiceRegistry.discover_services ⟨[("file", emptyStrategy)], [], none⟩ "file" =
      .ok (⟨[("file", emptyStrategy)], [], none⟩, []) :=
  C9_unknown_strategy_value_error ⟨[("file", emptyStrategy)], [], none⟩
    ⟨[("file", emptyStrategy)], [], none⟩ "zeroconf" "file" mayaInfo emptyStrategy
    rfl rfl rfl

/-- Claim C6: when the registry file fails to parse as JSON, or parses to a
top-level value that is not an object, `_load_registry` backs the file up
(the in-memory store is reset to empty) and `discover_services` returns an
empty list instead of raising. -/
theorem C6_corrupt_registry_recovery (fs : FS) (now : ℚ)
    (h : fs.file = .garbage ∨ ∃ j, fs.file = .json j ∧ j.isObj = false) :
    (FileDiscoveryStrategy.load_registry fs).2 = [] ∧
    (FileDiscoveryStrategy.load_registry fs).1.backups = fs.file :: fs.backups ∧
    (FileDiscoveryStrategy.discover_services fs none now).2 = .ok [] := by
  rcases h with h | ⟨j, hj, hobj⟩
  · simp [FileDiscoveryStrategy.load_registry, FileDiscoveryStrategy.discover_services,
      FileDiscoveryStrategy.backup_invalid_registry, h, FileDiscoveryStrategy.collectServices]
  · cases j <;>
      simp_all [FileDiscoveryStrategy.load_registry, FileDiscoveryStrategy.discover_services,
        FileDiscoveryStrategy.backup_invalid_registry, Json.isObj,
        FileDiscoveryStrategy.collectServices]

/-- Claim C6, witness: the theorem applied to a registry file holding invalid
JSON. -/
theorem C6_witness :
    (FileDiscoveryStrategy.load_registry ⟨.garbage, [], false⟩).2 = [] ∧
    (FileDiscoveryStrategy.load_registry ⟨.garbage, [], false⟩).1.backups =
      FS.file ⟨.garbage, [], false⟩ :: [] ∧
    (FileDiscoveryStrategy.discover_services ⟨.garbage, [], false⟩ none 0).2 = .ok [] :=
  C6_corrupt_registry_recovery ⟨.garbage, [], false⟩ 0 (.inl rfl)

/-- Claim C3, counterexample: a registry file whose "maya" category is stored
in the list shape, holding one fresh well-formed service object, yields no
records from `FileDiscoveryStrategy.discover_services` — the list value fails
the `isinstance(service_data, dict)` check and the category is skipped —
refuting the claim that it reads the entries of that category and returns a
ServiceRecord per fresh entry, just as it does for the legacy single-object
shape. -/
theorem C3_counterexample :
    (FileDiscoveryStrategy.discover_services
      ⟨.json (.obj [("maya", .arr [FileDiscoveryStrategy.serviceDataJson mayaInfo 1000])]),
        [], false⟩ (some "maya") 1100).2 = .ok [] :=
  rfl

/-- Claim C3, amended: `FileDiscoveryStrategy.discover_services` does not
read the list shape: a category whose value is a JSON list yields no records
(the value is logged as invalid service data and skipped), while a category
stored in the legacy single-object shape with a fresh timestamp yields its
record.  Only the `utils.discovery` module, not `FileDiscoveryStrategy`,
handles the list shape on read. -/
theorem C3_list_shape_skipped (c : String) (xs : List Json) (bs : List FileContent)
    (w : Bool) (st : Option String) (now : ℚ) (r : ServiceInfo) (T now2 : ℚ)
    (hc : r.dcc_type ≠ "_version") (hfresh : ¬ now2 - T > 3600) :
    (FileDiscoveryStrategy.discover_services ⟨.json (.obj [(c, .arr xs)]), bs, w⟩ st now).2 =
      .ok [] ∧
    (FileDiscoveryStrategy.discover_services (singleServiceFS r T) (some r.dcc_type) now2).2 =
      .ok [r] := by
  constructor
  · by_cases hcv : c = "_version"
    · simp [FileDiscoveryStrategy.discover_services, FileDiscoveryStrategy.load_registry,
        eraseKey, hcv, FileDiscoveryStrategy.collectServices]
    · simp [FileDiscoveryStrategy.discover_services, FileDiscoveryStrategy.load_registry,
        eraseKey, hcv, FileDiscoveryStrategy.collectServices, FileDiscoveryStrategy.entryResult,
        ite_self]
  · simp only [FileDiscoveryStrategy.discover_services, FileDiscoveryStrategy.load_registry,
      singleServiceFS, eraseKey, if_neg hc]
    rw [FileDiscoveryStrategy.collectServices,
      entryResult_serviceDataJson r T now2 (some r.dcc_type) (typeFilterSkips_self _),
      if_neg hfresh]
    rfl

/-- Claim C3, witness: the amended theorem applied to a concrete list-shape
store and a concrete fresh single-object store. -/
theorem C3_witness :
    (FileDiscoveryStrategy.discover_services ⟨.json (.obj [("maya", .arr [])]), [], false⟩
      none 0).2 = .ok [] ∧
    (FileDiscoveryStrategy.discover_services (singleServiceFS mayaInfo 1000)
      (some mayaInfo.dcc_type) 1100).2 = .ok [mayaInfo] :=
  C3_list_shape_skipped "maya" [] [] false none 0 mayaInfo 1000 1100
    (by decide) (by norm_num)

/-- Claim C5: a stored entry with timestamp `T` is excluded from
`discover_services` results queried at `T + 3600 + ε` and included at
`T + 3600 − ε` (for any rational `ε > 0`); in general the entry is skipped
exactly when `now − T` exceeds 3600 seconds. -/
theorem C5_staleness_boundary (r : ServiceInfo) (T ε : ℚ)
    (hc : r.dcc_type ≠ "_version") (hε : 0 < ε) :
    (FileDiscoveryStrategy.discover_services (singleServiceFS r T) none (T + 3600 + ε)).2 =
      .ok [] ∧
    (FileDiscoveryStrategy.discover_services (singleServiceFS r T) none (T + 3600 - ε)).2 =
      .ok [r] ∧
    ∀ now : ℚ, (FileDiscoveryStrategy.discover_services (singleServiceFS r T) none now).2 =
      .ok (if now - T > 3600 then [] else [r]) := by
  have key : ∀ now : ℚ,
      (FileDiscoveryStrategy.discover_services (singleServiceFS r T) none now).2 =
        .ok (if now - T > 3600 then [] else [r]) := by
    intro now
    simp only [FileDiscoveryStrategy.discover_services, FileDiscoveryStrategy.load_registry,
      singleServiceFS, eraseKey, if_neg hc]
    rw [FileDiscoveryStrategy.collectServices,
      entryResult_serviceDataJson r T now none rfl]
    by_cases hnow : now - T > 3600
    · rw [if_pos hnow, if_pos hnow]
      rfl
    · rw [if_neg hnow, if_neg hnow]
      rfl
  refine ⟨?_, ?_, key⟩
  · rw [key, if_pos (by linarith)]
  · rw [key, if_neg (by linarith)]

theorem load_registry_writeFails (fs : FS) :
    (FileDiscoveryStrategy.load_registry fs).1.writeFails = fs.writeFails := by
  obtain ⟨file, bs, w⟩ := fs
  cases file with
  | absent => rfl
  | garbage => rfl
  | json data => cases data <;> rfl

theorem load_registry_good (fs : FS) (hg : fs.goodFile) :
    ∀ e ∈ (FileDiscoveryStrategy.load_registry fs).2, goodEntry e := by
  obtain ⟨file, bs, w⟩ := fs
  cases file with
  | json data =>
    cases data with
    | obj fields =>
      intro e he
      have hg2 : ∀ e ∈ fields, goodEntry e := hg
      exact hg2 e (mem_of_mem_eraseKey
        (by simpa [FileDiscoveryStrategy.load_registry] using he))
    | null => intro e he; simp [FileDiscoveryStrategy.load_registry] at he
    | bool b => intro e he; simp [FileDiscoveryStrategy.load_registry] at he
    | num q => intro e he; simp [FileDiscoveryStrategy.load_registry] at he
    | str s => intro e he; simp [FileDiscoveryStrategy.load_registry] at he
    | arr xs => intro e he; simp [FileDiscoveryStrategy.load_registry] at he
  | absent => intro e he; simp [FileDiscoveryStrategy.load_registry] at he
  | garbage => intro e he; simp [FileDiscoveryStrategy.load_registry] at he

theorem goodEntry_serviceDataJson (k : String) (r : ServiceInfo) (now : ℚ) :
    goodEntry (k, FileDiscoveryStrategy.serviceDataJson r now) := by
  simp [goodEntry, FileDiscoveryStrategy.serviceDataJson, lookupKey, asNum]

theorem entryResult_ok_of_good (now : ℚ) (st : Option String) (k : String) (v : Json)
    (h : goodEntry (k, v)) :
    ∃ o, FileDiscoveryStrategy.entryResult now st k v = .ok o := by
  by_cases hf : FileDiscoveryStrategy.typeFilterSkips st k = true
  · exact ⟨none, by simp [FileDiscoveryStrategy.entryResult, hf]⟩
  · cases v with
    | obj fields =>
      have h2 : (asNum ((lookupKey fields "timestamp").getD (.num 0))).isSome = true := h
      obtain ⟨ts, hts⟩ := Option.isSome_iff_exists.mp h2
      by_cases hnow : now - ts > 3600
      · exact ⟨none, by simp [FileDiscoveryStrategy.entryResult, hf, hts, hnow]⟩
      · exact ⟨mkServiceInfo ((lookupKey fields "name").getD (.str k))
          ((lookupKey fields "host").getD (.str ""))
          ((lookupKey fields "port").getD (.num 0)) k
          ((lookupKey fields "metadata").getD (.obj [])),
          by simp [FileDiscoveryStrategy.entryResult, hf, hts, hnow]⟩
    | null => exact ⟨none, by simp [FileDiscoveryStrategy.entryResult, hf]⟩
    | bool b => exact ⟨none, by simp [FileDiscoveryStrategy.entryResult, hf]⟩
    | num q => exact ⟨none, by simp [FileDiscoveryStrategy.entryResult, hf]⟩
    | str s => exact ⟨none, by simp [FileDiscoveryStrategy.entryResult, hf]⟩
    | arr xs => exact ⟨none, by simp [FileDiscoveryStrategy.entryResult, hf]⟩

theorem collect_ok_of_good (now : ℚ) (st : Option String) :
    ∀ l : JFields, (∀ e ∈ l, goodEntry e) →
      ∃ out, FileDiscoveryStrategy.collectServices now st l = .ok out := by
  intro l
  induction l with
  | nil => exact fun _ => ⟨[], rfl⟩
  | cons hd tl ih =>
    intro h
    obtain ⟨k, v⟩ := hd
    obtain ⟨o, ho⟩ := entryResult_ok_of_good now st k v (h _ (List.mem_cons_self _ _))
    obtain ⟨out, hout⟩ := ih (fun e he => h e (List.mem_cons_of_mem _ he))
    cases o with
    | none => exact ⟨out, by simp [FileDiscoveryStrategy.collectServices, ho, hout]⟩
    | some si => exact ⟨si :: out, by simp [FileDiscoveryStrategy.collectServices, ho, hout]⟩

theorem collect_mem (now : ℚ) (st : Option String) {k : String} {v : Json}
    {si : ServiceInfo} :
    ∀ {l : JFields} {out : List ServiceInfo}, (k, v) ∈ l →
      FileDiscoveryStrategy.entryResult now st k v = .ok (some si) →
      FileDiscoveryStrategy.collectServices now st l = .ok out → si ∈ out := by
  intro l
  induction l with
  | nil => intro out h _ _; simp at h
  | cons hd tl ih =>
    intro out hmem he hcol
    obtain ⟨k0, v0⟩ := hd
    simp only [FileDiscoveryStrategy.collectServices] at hcol
    rcases List.mem_cons.mp hmem with heq | hmem2
    · injection heq with h1 h2
      subst h1
      subst h2
      rw [he] at hcol
      cases hrest : FileDiscoveryStrategy.collectServices now st tl with
      | error e => rw [hrest] at hcol; simp at hcol
      | ok tail =>
        rw [hrest] at hcol
        simp only [Except.ok.injEq] at hcol
        rw [← hcol]
        exact List.mem_cons_self _ _
    · cases her : FileDiscoveryStrategy.entryResult now st k0 v0 with
      | error e => rw [her] at hcol; simp at hcol
      | ok o =>
        rw [her] at hcol
        cases o with
        | none => exact ih hmem2 he hcol
        | some s0 =>
          cases hrest : FileDiscoveryStrategy.collectServices now st tl with
          | error e => rw [hrest] at hcol; simp at hcol
          | ok tail =>
            rw [hrest] at hcol
            simp only [Except.ok.injEq] at hcol
            rw [← hcol]
            exact List.mem_cons_of_mem _ (ih hmem2 he hrest)

/-- Claim C4, counterexample: on a state where the registry disk write fails,
`register_service` succeeds (returns true, per the C1 analysis), yet a
`discover_services(r.category)` call well before the staleness threshold and
with no intervening writer returns no record at all, refuting the roundtrip
as stated. -/
theorem C4_counterexample :
    (FileDiscoveryStrategy.register_service ⟨.json (.obj []), [], true⟩ mayaInfo 1000).2 =
      true ∧
    (FileDiscoveryStrategy.discover_services
      (FileDiscoveryStrategy.register_service ⟨.json (.obj []), [], true⟩ mayaInfo 1000).1
      (some "maya") 1100).2 = .ok [] :=
  ⟨rfl, rfl⟩

/-- Claim C4, amended: for a valid ServiceRecord `r` whose category is not
the reserved top-level key `_version`, if the registry write of
`register_service` actually persists (no I/O failure — `register_service`
returns true even when the write fails, so persistence is an extra
assumption), the registry file contents are code-written (every stored
object entry carries a numeric timestamp), and `discover_services(r.category)`
runs before the staleness threshold with no intervening writer, then the
result contains a record equal to `r` in name, host, port, category and
metadata. -/
theorem C4_register_discover_roundtrip (fs : FS) (r : ServiceInfo) (now1 now2 : ℚ)
    (hw : fs.writeFails = false) (hg : fs.goodFile) (hv : r.dcc_type ≠ "_version")
    (hfresh : ¬ now2 - now1 > 3600) :
    (FileDiscoveryStrategy.register_service fs r now1).2 = true ∧
    ∃ out, (FileDiscoveryStrategy.discover_services
        (FileDiscoveryStrategy.register_service fs r now1).1 (some r.dcc_type) now2).2 =
          .ok out ∧ r ∈ out := by
  refine ⟨rfl, ?_⟩
  have hw2 : (FileDiscoveryStrategy.load_registry fs).1.writeFails = false := by
    rw [load_registry_writeFails, hw]
  have hreg1 : (FileDiscoveryStrategy.register_service fs r now1).1 =
      { (FileDiscoveryStrategy.load_registry fs).1 with
        file := .json (.obj (setKey
          (setKey (FileDiscoveryStrategy.load_registry fs).2 r.dcc_type
            (FileDiscoveryStrategy.serviceDataJson r now1))
          "_version" (.num 1))) } := by
    show FileDiscoveryStrategy.save_registry (FileDiscoveryStrategy.load_registry fs).1
      (setKey (FileDiscoveryStrategy.load_registry fs).2 r.dcc_type
        (FileDiscoveryStrategy.serviceDataJson r now1)) = _
    simp [FileDiscoveryStrategy.save_registry, hw2]
  rw [hreg1]
  have hXg : ∀ e ∈ setKey (FileDiscoveryStrategy.load_registry fs).2 r.dcc_type
      (FileDiscoveryStrategy.serviceDataJson r now1), goodEntry e := by
    intro e he
    rcases mem_of_mem_setKey he with h | h
    · exact load_registry_good fs hg e h
    · rw [h]; exact goodEntry_serviceDataJson r.dcc_type r now1
  have hEg : ∀ e ∈ eraseKey (setKey
      (setKey (FileDiscoveryStrategy.load_registry fs).2 r.dcc_type
        (FileDiscoveryStrategy.serviceDataJson r now1))
      "_version" (Json.num 1)) "_version", goodEntry e := by
    intro e he
    rcases mem_of_mem_setKey (mem_of_mem_eraseKey he) with h | h
    · exact hXg e h
    · rw [h]; exact trivial
  obtain ⟨out, hout⟩ := collect_ok_of_good now2 (some r.dcc_type) _ hEg
  refine ⟨out, ?_, ?_⟩
  · exact hout
  · have m1 : (r.dcc_type, FileDiscoveryStrategy.serviceDataJson r now1) ∈
        setKey (FileDiscoveryStrategy.load_registry fs).2 r.dcc_type
          (FileDiscoveryStrategy.serviceDataJson r now1) :=
      setKey_self_mem _ _ _
    have m2 : (r.dcc_type, FileDiscoveryStrategy.serviceDataJson r now1) ∈
        setKey (setKey (FileDiscoveryStrategy.load_registry fs).2 r.dcc_type
          (FileDiscoveryStrategy.serviceDataJson r now1)) "_version" (Json.num 1) :=
      mem_setKey_of_ne m1 hv
    have m3 : (r.dcc_type, FileDiscoveryStrategy.serviceDataJson r now1) ∈
        eraseKey (setKey (setKey (FileDiscoveryStrategy.load_registry fs).2 r.dcc_type
          (FileDiscoveryStrategy.serviceDataJson r now1)) "_version" (Json.num 1))
          "_version" :=
      mem_eraseKey_of_ne m2 hv
    have he : FileDiscoveryStrategy.entryResult now2 (some r.dcc_type) r.dcc_type
        (FileDiscoveryStrategy.serviceDataJson r now1) = .ok (some r) := by
      rw [entryResult_serviceDataJson r now1 now2 _ (typeFilterSkips_self _), if_neg hfresh]
    exact collect_mem now2 (some r.dcc_type) m3 he hout

/-- Claim C4, witness: the amended theorem applied to an initially absent
registry file with the sample record, registered at `1000` and discovered at
`1100`. -/
theorem C4_witness :
    (FileDiscoveryStrategy.register_service ⟨.absent, [], false⟩ mayaInfo 1000).2 = true ∧
    ∃ out, (FileDiscoveryStrategy.discover_services
        (FileDiscoveryStrategy.register_service ⟨.absent, [], false⟩ mayaInfo 1000).1
        (some mayaInfo.dcc_type) 1100).2 = .ok out ∧ mayaInfo ∈ out :=
  C4_register_discover_roundtrip ⟨.absent, [], false⟩ mayaInfo 1000 1100
    rfl trivial (by decide) (by norm_num)

/-- Claim C5, witness: the theorem applied to the sample record registered at
`T = 1000` with `ε = 1`. -/
theorem C5_witness :
    (FileDiscoveryStrategy.discover_services (singleServiceFS mayaInfo 1000) none
      (1000 + 3600 + 1)).2 = .ok [] ∧
    (FileDiscoveryStrategy.discover_services (singleServiceFS mayaInfo 1000) none
      (1000 + 3600 - 1)).2 = .ok [mayaInfo] ∧
    ∀ now : ℚ, (FileDiscoveryStrategy.discover_services (singleServiceFS mayaInfo 1000) none
      now).2 = .ok (if now - 1000 > 3600 then [] else [mayaInfo]) :=
  C5_staleness_boundary mayaInfo 1000 1 (by decide) (by norm_num)

theorem ga_snd (reg : ServiceRegistry) :
    (reg.get_available_dcc_instances true).2 =
      groupRun reg.strategies (reg.strategies.map Prod.fst) [] := by
  have main : ∀ (names : List String) (r : ServiceRegistry) (acc : Grouped),
      r.strategies = reg.strategies →
      (names.foldl (fun acc2 name =>
          match acc2.1.discover_services name with
          | .error _ => acc2
          | .ok (reg2, svcs) => (reg2, ServiceRegistry.addServices acc2.2 svcs)) (r, acc)).2 =
        groupRun reg.strategies names acc := by
    intro names
    induction names with
    | nil => intro r acc _; simp [groupRun]
    | cons n rest ih =>
      intro r acc h
      rw [List.foldl_cons, groupRun]
      cases hlk : lookupKey reg.strategies n with
      | none =>
        have hred : r.discover_services n = .error (.valueError n) := by
          simp [ServiceRegistry.discover_services, h, hlk]
        simp only [hred, hlk]
        exact ih r acc h
      | some s =>
        cases herr : s.discoverResult with
        | error e =>
          have hred : r.discover_services n = .error .strategyError := by
            simp [ServiceRegistry.discover_services, h, hlk, herr]
          simp only [hred, hlk, herr]
          exact ih r acc h
        | ok svcs =>
          have hred : r.discover_services n =
              .ok ({ r with services := ServiceRegistry.updateCache r.services svcs },
                svcs) := by
            simp [ServiceRegistry.discover_services, h, hlk, herr]
          simp only [hred, hlk, herr]
          exact ih _ (ServiceRegistry.addServices acc svcs) h
  cases hci : reg.cachedInstances with
  | none =>
    simpa [ServiceRegistry.get_available_dcc_instances, hci] using
      main (reg.strategies.map Prod.fst) reg [] rfl
  | some g =>
    simpa [ServiceRegistry.get_available_dcc_instances, hci] using
      main (reg.strategies.map Prod.fst) reg [] rfl

theorem groupRun_append (strats : List (String × Strategy)) (as2 bs : List String) :
    ∀ acc : Grouped, groupRun strats (as2 ++ bs) acc = groupRun strats bs (groupRun strats as2 acc) := by
  induction as2 with
  | nil => intro acc; rfl
  | cons n rest ih =>
    intro acc
    rw [List.cons_append, groupRun, groupRun]
    cases hlk : lookupKey strats n with
    | none => simp only [hlk]; exact ih _
    | some s =>
      cases herr : s.discoverResult with
      | error e => simp only [hlk, herr]; exact ih _
      | ok svcs => simp only [hlk, herr]; exact ih _

theorem groupRun_congr (ga gb : List (String × Strategy)) (names : List String)
    (h : ∀ n ∈ names, lookupKey ga n = lookupKey gb n) :
    ∀ acc : Grouped, groupRun ga names acc = groupRun gb names acc := by
  induction names with
  | nil => intro acc; rfl
  | cons n rest ih =>
    intro acc
    rw [groupRun, groupRun, h n (List.mem_cons_self _ _)]
    have ih2 := ih (fun m hm => h m (List.mem_cons_of_mem _ hm))
    cases hlk : lookupKey gb n with
    | none => simp only [hlk]; exact ih2 _
    | some s =>
      cases herr : s.discoverResult with
      | error e => simp only [hlk, herr]; exact ih2 _
      | ok svcs => simp only [hlk, herr]; exact ih2 _

theorem lookup_mid_ne (pre post : List (String × Strategy)) (bad n : String) (s : Strategy)
    (hn : n ≠ bad) :
    lookupKey (pre ++ (bad, s) :: post) n = lookupKey (pre ++ post) n := by
  induction pre with
  | nil =>
    simp only [List.nil_append, lookupKey]
    rw [if_neg (fun hbad => hn hbad.symm)]
  | cons hd tl ih =>
    obtain ⟨k, w⟩ := hd
    simp only [List.cons_append, lookupKey]
    by_cases hk : k = n
    · rw [if_pos hk, if_pos hk]
    · rw [if_neg hk, if_neg hk]
      exact ih

theorem lookup_mid_self (pre post : List (String × Strategy)) (bad : String) (s : Strategy)
    (hpre : bad ∉ pre.map Prod.fst) :
    lookupKey (pre ++ (bad, s) :: post) bad = some s := by
  induction pre with
  | nil => simp [lookupKey]
  | cons hd tl ih =>
    obtain ⟨k, w⟩ := hd
    simp only [List.map_cons, List.mem_cons] at hpre
    push_neg at hpre
    simp only [List.cons_append, lookupKey]
    rw [if_neg (fun hk => hpre.1 hk.symm)]
    exact ih hpre.2

/-- Claim C7: during `get_available_dcc_instances`, an exception raised by
the `discover_services` of one strategy is caught and logged, the iteration over
the remaining strategies continues, and the grouped result equals the one the
registry would produce without the failing strategy — the services discovered
by every other strategy still appear. -/
theorem C7_strategy_error_isolated (pre post : List (String × Strategy)) (bad : String)
    (s : Strategy) (svc1 svc2 : List (String × ServiceInfo)) (ci1 ci2 : Option Grouped)
    (hpre : bad ∉ pre.map Prod.fst) (hpost : bad ∉ post.map Prod.fst)
    (herr : s.discoverResult = .error ()) :
    (ServiceRegistry.get_available_dcc_instances ⟨pre ++ (bad, s) :: post, svc1, ci1⟩ true).2 =
      (ServiceRegistry.get_available_dcc_instances ⟨pre ++ post, svc2, ci2⟩ true).2 := by
  rw [ga_snd, ga_snd]
  show groupRun (pre ++ (bad, s) :: post) ((pre ++ (bad, s) :: post).map Prod.fst) [] =
    groupRun (pre ++ post) ((pre ++ post).map Prod.fst) []
  have hprene : ∀ n ∈ pre.map Prod.fst, lookupKey (pre ++ (bad, s) :: post) n =
      lookupKey (pre ++ post) n := by
    intro n hn
    exact lookup_mid_ne pre post bad n s (fun hq => hpre (hq ▸ hn))
  have hpostne : ∀ n ∈ post.map Prod.fst, lookupKey (pre ++ (bad, s) :: post) n =
      lookupKey (pre ++ post) n := by
    intro n hn
    exact lookup_mid_ne pre post bad n s (fun hq => hpost (hq ▸ hn))
  rw [List.map_append, List.map_cons, List.map_append]
  rw [groupRun_append, groupRun_append]
  rw [groupRun, lookup_mid_self pre post bad s hpre]
  simp only [herr]
  rw [groupRun_congr _ _ _ hprene, groupRun_congr _ _ _ hpostne]

/-- Claim C7, witness: the theorem applied to a registry holding a working
"file" strategy and a raising "zeroconf" strategy. -/
theorem C7_witness :
    (ServiceRegistry.get_available_dcc_instances
      ⟨[("file", mayaStrategy), ("zeroconf", errStrategy)], [], none⟩ true).2 =
    (ServiceRegistry.get_available_dcc_instances
      ⟨[("file", mayaStrategy)], [], none⟩ true).2 :=
  C7_strategy_error_isolated [("file", mayaStrategy)] [] "zeroconf" errStrategy [] [] none none
    (by decide) (by decide) rfl

/-- Claim C8: when the same `(category, host, port)` identity is discovered
through two different registered strategies, `get_available_dcc_instances`
with `refresh = true` returns exactly one instance entry for that category
with that host and port — deduplicated by host:port within the category. -/
theorem C8_dedup_by_host_port (n1 n2 : String) (s1 s2 : Strategy) (a b : ServiceInfo)
    (svc : List (String × ServiceInfo)) (ci : Option Grouped)
    (hn : n1 ≠ n2) (h1 : s1.discoverResult = .ok [a]) (h2 : s2.discoverResult = .ok [b])
    (hd : pyLower b.dcc_type = pyLower a.dcc_type) (hh : b.host = a.host)
    (hp : b.port = a.port) :
    (ServiceRegistry.get_available_dcc_instances ⟨[(n1, s1), (n2, s2)], svc, ci⟩ true).2 =
      [(pyLower a.dcc_type, [ServiceRegistry.instanceEntryOf a])] := by
  rw [ga_snd]
  show groupRun [(n1, s1), (n2, s2)] [n1, n2] [] = _
  simp only [groupRun, lookupKey, eq_self_iff_true, if_true, hn, if_false, h1, h2]
  simp [groupRun, ServiceRegistry.addServices, ServiceRegistry.addService, lookupKey, setKey,
    ServiceRegistry.instanceEntryOf, hd, hh, hp, hn]

/-- Claim C8, witness: the theorem applied to two strategies that both return
the sample identity `("maya", "127.0.0.1", 18812)` under different display
names. -/
theorem C8_witness :
    (ServiceRegistry.get_available_dcc_instances
      ⟨[("file", mayaStrategy), ("zeroconf", mayaStrategyB)], [], none⟩ true).2 =
      [(pyLower mayaInfo.dcc_type, [ServiceRegistry.instanceEntryOf mayaInfo])] :=
  C8_dedup_by_host_port "file" "zeroconf" mayaStrategy mayaStrategyB mayaInfo
    ⟨"maya-b", "127.0.0.1", 18812, "maya", []⟩ [] none
    (by decide) rfl rfl rfl rfl rfl

end DccMcpRpyc
